import Mathlib

/-!
Verification of the WMS_Pro warehouse inventory server against its
natural-language specification.

The development shallowly embeds the server's storage layer
(`src/server/storage.ts`, class `DatabaseStorage`) and the stock route of
`src/server/routes.ts`.  Database rows become Lean structures, the database
becomes an explicit `State` value, and each storage method becomes a pure
function on `State`.  Machine integers are modelled as `Int`/`Nat` (stock
levels fit comfortably; no overflow behaviour is relied upon by the code),
and the SQL `real`/`decimal` column `unit_price` is modelled as `Rat`.

Modelling notes, common to all definitions below:
* surrogate autoincrement ids of `movements` rows are omitted (no claim
  mentions them; rows are identified positionally in the append-only list);
* `current_stock` has a non-null default of 0 and the code additionally
  guards with `product.currentStock || 0`, so the model keeps
  `currentStock : Int` non-nullable — on every non-null integer the guard
  is the identity (JavaScript `0 || 0 = 0`);
* a SQL `UPDATE ... WHERE id = x` is a `List.map` touching every row whose
  `id` field matches, and a drizzle `[row] = await ...select...` head
  destructuring is `List.find?`.
-/

namespace WMS

/-- Rows of the `zones` table (shared/schema.ts). -/
structure Zone where
  id : Nat
  name : String
  description : Option String
  capacity : Int
  createdAt : Nat
  updatedAt : Nat
deriving DecidableEq, Repr

/-- Rows of the `products` table (shared/schema.ts). -/
structure Product where
  id : Nat
  productId : String
  name : String
  description : Option String
  category : String
  zoneId : Option Nat
  currentStock : Int
  minStock : Int
  unitPrice : Rat
  isActive : Bool
  createdAt : Nat
  updatedAt : Nat
deriving DecidableEq, Repr

/-- Movement type strings: the code stores `"IN"` or `"OUT"`. -/
inductive MovType where
  | IN : MovType
  | OUT : MovType
deriving DecidableEq, Repr

/-- Rows of the `movements` table (shared/schema.ts), without the surrogate id. -/
structure Movement where
  productId : Nat
  type : MovType
  quantity : Int
  previousStock : Int
  newStock : Int
  reason : Option String
  userId : Option String
  createdAt : Nat
deriving DecidableEq, Repr

/-- The database state: the three tables the claims are about. -/
structure State where
  zones : List Zone
  products : List Product
  movements : List Movement
deriving DecidableEq, Repr

/-- Errors thrown by `DatabaseStorage.updateStock` (storage.ts lines 379, 385). -/
inductive StockError where
  | productNotFound : StockError
  | insufficientStock : StockError
deriving DecidableEq, Repr

/-- The message carried by each thrown `Error` (storage.ts lines 379, 385). -/
def errMessage : StockError → String
  | .productNotFound => "Product not found"
  | .insufficientStock => "Insufficient stock"

/-- Row lookup `select().from(products).where(eq(products.id, id))` with head
destructuring, as used throughout storage.ts. -/
def findProduct (s : State) (pid : Nat) : Option Product :=
  s.products.find? (fun p => p.id == pid)

/-- The product-table write of `updateStock`
(`update(products).set({currentStock: newStock, updatedAt: now}).where(eq(products.id, productId))`). -/
def setStock (ps : List Product) (pid : Nat) (ns : Int) (now : Nat) : List Product :=
  ps.map (fun q => if q.id == pid then { q with currentStock := ns, updatedAt := now } else q)

/-- The `newStock` computation of `updateStock` (storage.ts line 382):
`type === "IN" ? previousStock + quantity : previousStock - quantity`,
where `previousStock` is the product's current stock. -/
def newStockOf (p : Product) (quantity : Int) (ty : MovType) : Int :=
  if ty = MovType.IN then p.currentStock + quantity else p.currentStock - quantity

/-- The movement row inserted by `updateStock` (storage.ts lines 395-403). -/
def mkMovement (pid : Nat) (quantity : Int) (ty : MovType)
    (reason : Option String) (userId : Option String) (now : Nat) (p : Product) :
    Movement :=
  ⟨pid, ty, quantity, p.currentStock, newStockOf p quantity ty, reason, userId, now⟩

/-- `DatabaseStorage.updateStock` (storage.ts lines 375-405): inside one
transaction, read the product, compute `newStock`, throw before any write if
the product is missing or `newStock < 0`, otherwise update the product row
and append one movement row.  A thrown error aborts the transaction with no
state change, so the error outcome carries no state. -/
def updateStock (s : State) (pid : Nat) (quantity : Int) (ty : MovType)
    (reason : Option String) (userId : Option String) (now : Nat) :
    Except StockError State :=
  match findProduct s pid with
  | none => .error .productNotFound
  | some product =>
    if newStockOf product quantity ty < 0 then .error .insufficientStock
    else .ok { s with
      products := setStock s.products pid (newStockOf product quantity ty) now,
      movements := s.movements ++ [mkMovement pid quantity ty reason userId now product] }

/-- The transaction as observed from outside: on a throw the rollback leaves
the database exactly as it was, so the resulting state is the input state. -/
def runUpdateStock (s : State) (pid : Nat) (quantity : Int) (ty : MovType)
    (reason : Option String) (userId : Option String) (now : Nat) :
    State × Option StockError :=
  match updateStock s pid quantity ty reason userId now with
  | .error e => (s, some e)
  | .ok s2 => (s2, none)

/-- The signed stock delta a movement row represents: `+quantity` for IN,
`-quantity` for OUT (the arithmetic of storage.ts line 382). -/
def movDelta (m : Movement) : Int :=
  if m.type = MovType.IN then m.quantity else -m.quantity

/-- The full movement history of one product, in insertion order
(`movements` rows with `productId = pid`). -/
def movementsFor (s : State) (pid : Nat) : List Movement :=
  s.movements.filter (fun m => m.productId == pid)

/-- Net signed sum of a movement history. -/
def sumDeltas (ms : List Movement) : Int :=
  (ms.map movDelta).sum

/-- Sum of the quantities of the IN movements of a history. -/
def sumIN (ms : List Movement) : Int :=
  ((ms.filter (fun m => m.type == MovType.IN)).map Movement.quantity).sum

/-- Sum of the quantities of the OUT movements of a history. -/
def sumOUT (ms : List Movement) : Int :=
  ((ms.filter (fun m => m.type == MovType.OUT)).map Movement.quantity).sum

/-- A movement row's snapshots are arithmetically coherent:
`newStock = previousStock + quantity` for IN and
`newStock = previousStock - quantity` for OUT. -/
def movOk (m : Movement) : Bool :=
  m.newStock == m.previousStock + movDelta m

/-- The most recent movement of a history (if any) records `newStock = cs`. -/
def lastOk (cs : Int) (ms : List Movement) : Bool :=
  ms.getLast?.all (fun m => m.newStock == cs)

/-- One product agrees with its movement history: `currentStock` is the
implicit initial stock plus the net history delta, the latest movement's
`newStock` snapshot equals `currentStock`, and every history row is
arithmetically coherent. -/
def productConsistent (init : Int) (ms : List Movement) (p : Product) : Bool :=
  (p.currentStock == init + sumDeltas ms) && lastOk p.currentStock ms && ms.all movOk

/-- Ledger consistency of the state for product `pid`, relative to its
implicit initial stock `init` (vacuous when the product does not exist). -/
def consistentB (s : State) (pid : Nat) (init : Int) : Bool :=
  (findProduct s pid).all (productConsistent init (movementsFor s pid))

/-- One call to the stock-update operation, as data. -/
structure StockReq where
  pid : Nat
  quantity : Int
  type : MovType
  reason : Option String
  userId : Option String
  now : Nat
deriving DecidableEq, Repr

/-- A finite sequence of stock-update calls, all of which succeed;
`none` when any call in the sequence fails. -/
def applySeq (s : State) : List StockReq → Option State
  | [] => some s
  | r :: rs =>
    match updateStock s r.pid r.quantity r.type r.reason r.userId r.now with
    | .error _ => none
    | .ok s2 => applySeq s2 rs

/-- Status filter values of `getProducts` (storage.ts line 117); `"all"` is
truthy in JavaScript but has no `case` in the switch, so it adds no
condition. -/
inductive StatusFilter where
  | all : StatusFilter
  | in_stock : StatusFilter
  | low_stock : StatusFilter
  | out_of_stock : StatusFilter
deriving DecidableEq, Repr

/-- The per-status SQL condition pushed by the `switch` of `getProducts`
(storage.ts lines 140-154): `in_stock`: `currentStock > minStock`;
`low_stock`: `currentStock <= minStock AND currentStock > 0`;
`out_of_stock`: `currentStock = 0`; no condition otherwise. -/
def statusCond : StatusFilter → Product → Bool
  | .all, _ => true
  | .in_stock, p => decide (p.currentStock > p.minStock)
  | .low_stock, p => decide (p.currentStock ≤ p.minStock) && decide (p.currentStock > 0)
  | .out_of_stock, p => p.currentStock == 0

/-- Filter object of `getProducts` (storage.ts lines 114-119). -/
structure ProductFilters where
  category : Option String
  zoneId : Option Nat
  status : Option StatusFilter
  search : Option String
deriving Repr

/-- Characters of a string, lower-cased (model of SQL case-insensitive
pattern matching: `ilike` in the Postgres variant, `like` in the SQLite
variant, both applied to `%search%`). -/
def lowerChars (s : String) : List Char :=
  s.data.map Char.toLower

/-- Contiguous-sublist test on character lists. -/
def containsSub (hay nee : List Char) : Bool :=
  match hay with
  | [] => nee.isEmpty
  | h :: t => nee.isPrefixOf (h :: t) || containsSub t nee

/-- Case-insensitive substring test: the model of
`ilike(column, %needle%)` (storage.ts lines 130-138). -/
def containsCI (hay nee : String) : Bool :=
  containsSub (lowerChars hay) (lowerChars nee)

/-- The conjunction of conditions built by `getProducts`
(storage.ts lines 120-154).  A JavaScript-falsy filter value—an absent
field, the empty string for `category`/`search`, or `0` for `zoneId`—adds no
condition, mirroring the `if (filters?.x)` guards. -/
def matchesFilters (f : ProductFilters) (p : Product) : Bool :=
  p.isActive
  && (match f.category with
      | some c => c == "" || p.category == c
      | none => true)
  && (match f.zoneId with
      | some z => z == 0 || p.zoneId == some z
      | none => true)
  && (match f.search with
      | some t => t == ""
          || (containsCI p.name t || containsCI p.productId t || containsCI p.category t)
      | none => true)
  && (match f.status with
      | some st => statusCond st p
      | none => true)

/-- Name order on products, the `orderBy(asc(products.name))` of
`getProducts`. -/
def nameLe (p q : Product) : Prop :=
  p.name ≤ q.name

instance : DecidableRel nameLe :=
  fun p q => inferInstanceAs (Decidable (p.name ≤ q.name))

instance : IsTotal Product nameLe :=
  ⟨fun a b => le_total a.name b.name⟩

instance : IsTrans Product nameLe :=
  ⟨fun _ _ _ hab hbc => le_trans hab hbc⟩

/-- `DatabaseStorage.getProducts` (storage.ts lines 114-181): active products
satisfying every pushed condition, ordered by name ascending (the zone join
only decorates rows and is omitted). -/
def getProducts (s : State) (f : ProductFilters) : List Product :=
  List.insertionSort nameLe (s.products.filter (matchesFilters f))

/-- Dashboard `totalItems` (storage.ts lines 309-312): count of active
products. -/
def totalItems (s : State) : Nat :=
  (s.products.filter (fun p => p.isActive)).length

/-- Dashboard `lowStockItems` (storage.ts lines 314-323): count of active
products with `currentStock <= minStock AND currentStock > 0`. -/
def lowStockItems (s : State) : Nat :=
  (s.products.filter (fun p =>
    p.isActive && decide (p.currentStock ≤ p.minStock) && decide (p.currentStock > 0))).length

/-- Dashboard `outOfStockItems` (storage.ts lines 325-333): count of active
products with `currentStock = 0`. -/
def outOfStockItems (s : State) : Nat :=
  (s.products.filter (fun p => p.isActive && p.currentStock == 0)).length

/-- SQLite `CAST(x AS INTEGER)`: truncation toward zero, `Int.div` of the
numerator by the denominator of the reduced fraction. -/
def ratTrunc (x : Rat) : Int :=
  x.num.tdiv (x.den : Int)

/-- Dashboard `totalValue` (storage.ts lines 335-340 and the sqlite variant
lines 860-865): `cast(coalesce(sum(currentStock * unitPrice), 0) as integer)`
over active products — note the integer cast around the sum
(`coalesce` is the empty-sum case, which the list sum already yields). -/
def totalValue (s : State) : Int :=
  ratTrunc (((s.products.filter (fun p => p.isActive)).map
    (fun p => (p.currentStock : Rat) * p.unitPrice)).sum)

/-- The exact total value in the spec's words ("totalValue = Σ currentStock ×
unitPrice over active products", with no rounding), kept as a separate
definition to compare the code against. -/
def totalValueExact (s : State) : Rat :=
  ((s.products.filter (fun p => p.isActive)).map
    (fun p => (p.currentStock : Rat) * p.unitPrice)).sum

/-- Name order on zones, the `orderBy(asc(zones.name))` of the zoneStatus
query. -/
def zoneNameLe (y z : Zone) : Prop :=
  y.name ≤ z.name

instance : DecidableRel zoneNameLe :=
  fun y z => inferInstanceAs (Decidable (y.name ≤ z.name))

instance : IsTotal Zone zoneNameLe :=
  ⟨fun a b => le_total a.name b.name⟩

instance : IsTrans Zone zoneNameLe :=
  ⟨fun _ _ _ hab hbc => le_trans hab hbc⟩

/-- One row of the dashboard `zoneStatus` result. -/
structure ZoneStatusRow where
  zone : Zone
  itemCount : Nat
deriving DecidableEq, Repr

/-- Count of active products assigned to zone `zid` — the
`count(products.id)` over the left join
`leftJoin(products, and(eq(zones.id, products.zoneId), eq(products.isActive, true)))`
grouped by zone (a zone with no matching products keeps one all-NULL joined
row, and `count` of a NULL column is 0). -/
def zoneItemCount (s : State) (zid : Nat) : Nat :=
  (s.products.filter (fun p => p.isActive && p.zoneId == some zid)).length

/-- Dashboard `zoneStatus` (storage.ts lines 344-362): one row per zone (the
query groups by the primary key `zones.id`), ordered by zone name. -/
def zoneStatus (s : State) : List ZoneStatusRow :=
  (List.insertionSort zoneNameLe s.zones).map (fun z => ⟨z, zoneItemCount s z.id⟩)

/-- `DatabaseStorage.deleteProduct` (storage.ts lines 255-257, sqlite variant
lines 777-779): `update(products).set({ isActive: false }).where(eq(products.id, id))` —
the set clause contains only `isActive`. -/
def deleteProduct (s : State) (id : Nat) : State :=
  { s with products :=
      s.products.map (fun q => if q.id == id then { q with isActive := false } else q) }

/-- A `Partial<InsertProduct>` body for `updateProduct`: each settable column
optionally present. -/
structure ProductPatch where
  productId : Option String
  name : Option String
  description : Option (Option String)
  category : Option String
  zoneId : Option (Option Nat)
  currentStock : Option Int
  minStock : Option Int
  unitPrice : Option Rat
  isActive : Option Bool
deriving Repr

/-- Application of one patch to one row, always refreshing `updatedAt` —
the `set({ ...product, updatedAt: new Date() })` of `updateProduct`. -/
def applyPatch (q : Product) (d : ProductPatch) (now : Nat) : Product :=
  { q with
    productId := d.productId.getD q.productId
    name := d.name.getD q.name
    description := d.description.getD q.description
    category := d.category.getD q.category
    zoneId := d.zoneId.getD q.zoneId
    currentStock := d.currentStock.getD q.currentStock
    minStock := d.minStock.getD q.minStock
    unitPrice := d.unitPrice.getD q.unitPrice
    isActive := d.isActive.getD q.isActive
    updatedAt := now }

/-- `DatabaseStorage.updateProduct` (storage.ts lines 246-253). -/
def updateProduct (s : State) (id : Nat) (d : ProductPatch) (now : Nat) : State :=
  { s with products :=
      s.products.map (fun q => if q.id == id then applyPatch q d now else q) }

/-- An HTTP response of the stock route: status code and message body. -/
structure HttpReply where
  status : Nat
  message : String
deriving DecidableEq, Repr

/-- The `POST /api/products/:id/stock` handler (routes.ts lines 186-202).
The guard `if (!quantity || !type || !["IN","OUT"].includes(type))` rejects a
JavaScript-falsy quantity — that is, exactly `0` for a number — or a type
outside {IN, OUT} with HTTP 400; otherwise it runs `updateStock` and maps
every thrown error to HTTP 500 carrying the error's message. -/
def postStock (s : State) (id : Nat) (quantity : Int) (ty : String)
    (reason : Option String) (userId : Option String) (now : Nat) :
    HttpReply × State :=
  if quantity == 0 || !(ty == "IN" || ty == "OUT") then
    (⟨400, "Invalid stock update data"⟩, s)
  else
    match updateStock s id quantity (if ty == "IN" then MovType.IN else MovType.OUT)
        reason userId now with
    | .error e => (⟨500, errMessage e⟩, s)
    | .ok s2 => (⟨200, "Stock updated successfully"⟩, s2)

/-- The three-way stock classification in the spec's words (§4.2
`classifyStock`, an operation the spec names but which storage.ts implements
only as the inline SQL conditions of `statusCond`): kept as a separate
definition to compare the code against. -/
inductive StockClass where
  | in_stock : StockClass
  | low_stock : StockClass
  | out_of_stock : StockClass
deriving DecidableEq, Repr

/-- Spec-side `classifyStock`: `out_of_stock` iff `currentStock == 0`;
`low_stock` iff `0 < currentStock <= minStock`; else `in_stock`. -/
def classifyStock (p : Product) : StockClass :=
  if p.currentStock = 0 then .out_of_stock
  else if 0 < p.currentStock ∧ p.currentStock ≤ p.minStock then .low_stock
  else .in_stock

/-- The stock class a status filter selects (none for `all`). -/
def statusClass : StatusFilter → Option StockClass
  | .all => none
  | .in_stock => some .in_stock
  | .low_stock => some .low_stock
  | .out_of_stock => some .out_of_stock

/-- The spec-side description of `filterProducts` (§4.2): active products
only; category and zoneId by exact match when given (and non-falsy); search
as a case-insensitive substring match against name OR external productId OR
category; status via `classifyStock`. -/
def specMatches (f : ProductFilters) (p : Product) : Prop :=
  p.isActive = true ∧
  (∀ c, f.category = some c → c ≠ "" → p.category = c) ∧
  (∀ z, f.zoneId = some z → z ≠ 0 → p.zoneId = some z) ∧
  (∀ t, f.search = some t → t ≠ "" →
    (containsCI p.name t = true ∨ containsCI p.productId t = true ∨
     containsCI p.category t = true)) ∧
  (∀ st c, f.status = some st → statusClass st = some c → classifyStock p = c)

/-- Two stock calls on one product: IN of `q` then OUT of `q`
(the spec's round-trip test, §8). -/
def updateStockTwice (s : State) (pid : Nat) (q : Int)
    (r1 u1 : Option String) (n1 : Nat) (r2 u2 : Option String) (n2 : Nat) :
    Except StockError State :=
  match updateStock s pid q MovType.IN r1 u1 n1 with
  | .error e => .error e
  | .ok s1 => updateStock s1 pid q MovType.OUT r2 u2 n2

/-- Example product for the stock-route claims: stock 3, threshold 10. -/
def exRouteProduct : Product :=
  ⟨1, "P-1", "Widget", none, "tools", none, 3, 10, 5, true, 0, 0⟩

/-- Example state for the stock-route claims. -/
def exRouteState : State := ⟨[], [exRouteProduct], []⟩

/-- Empty database state. -/
def exEmptyState : State := ⟨[], [], []⟩

/-- Boundary product of the classification claim: stock 10, threshold 10. -/
def exBoundary10 : Product :=
  ⟨1, "B-1", "Bolt", none, "parts", none, 10, 10, 1, true, 0, 0⟩

/-- Boundary product with stock 11, threshold 10. -/
def exBoundary11 : Product := { exBoundary10 with currentStock := 11 }

/-- Boundary product with stock 0. -/
def exBoundary0 : Product := { exBoundary10 with currentStock := 0 }

/-- Example state of the total-value claim: one active product worth 1/2. -/
def exValueState : State :=
  ⟨[], [⟨1, "V-1", "Washer", none, "parts", none, 1, 0, (1 : Rat)/2, true, 0, 0⟩], []⟩

/-- An inactive product with nonzero stock and price. -/
def exInactive : Product :=
  ⟨2, "V-2", "Gasket", none, "parts", none, 100, 0, 3, false, 0, 0⟩

/-- Example product of the IN-then-OUT round-trip claim. -/
def exC7Product : Product :=
  ⟨1, "P-7", "Nut", none, "parts", none, 4, 10, 2, true, 0, 0⟩

/-- Example state of the IN-then-OUT round-trip claim. -/
def exC7State : State := ⟨[], [exC7Product], []⟩

/-- Final state of the concrete IN 5 / OUT 5 round-trip. -/
def exC7Final : State :=
  { exC7State with
    products := setStock (setStock exC7State.products 1 (exC7Product.currentStock + 5) 1)
      1 exC7Product.currentStock 2,
    movements := exC7State.movements ++
      [⟨1, MovType.IN, 5, exC7Product.currentStock, exC7Product.currentStock + 5, none, none, 1⟩,
       ⟨1, MovType.OUT, 5, exC7Product.currentStock + 5, exC7Product.currentStock, none, none, 2⟩] }

/-- Example products for the product-listing claim. -/
def exFilterP1 : Product := ⟨1, "ABC-1", "Anvil", none, "tools", some 1, 5, 2, 10, true, 0, 0⟩

/-- Second example product (out of stock, different category). -/
def exFilterP2 : Product := ⟨2, "XYZ-9", "Zipper", none, "apparel", none, 0, 3, 4, true, 0, 0⟩

/-- Third example product (inactive). -/
def exFilterP3 : Product := ⟨3, "DEF-2", "Hammer", none, "tools", some 1, 1, 0, 6, false, 0, 0⟩

/-- Example state for the product-listing claim. -/
def exFilterState : State := ⟨[], [exFilterP1, exFilterP2, exFilterP3], []⟩

/-- Example filter: category `tools`, case-insensitive search `anv`. -/
def exFilter : ProductFilters := ⟨some "tools", none, none, some "anv"⟩

/-- Example zone holding one product. -/
def exZoneA : Zone := ⟨1, "A", none, 10, 0, 0⟩

/-- Example zone referenced by no product. -/
def exZoneB : Zone := ⟨2, "B", none, 0, 0, 0⟩

/-- Example state for the zoneStatus claim: zone B has no products. -/
def exZoneState : State :=
  ⟨[exZoneA, exZoneB], [⟨1, "P", "W", none, "c", some 1, 2, 0, 1, true, 0, 0⟩], []⟩

/-- Witness state for C2: one product with stock 0 and no history. -/
def exLedgerProduct : Product :=
  ⟨1, "P-1", "Widget", none, "tools", none, 0, 10, 5, true, 0, 0⟩

/-- Witness start state for C2. -/
def exLedgerState : State := ⟨[], [exLedgerProduct], []⟩

/-- Witness request sequence for C2: IN 5 then OUT 3. -/
def exLedgerReqs : List StockReq :=
  [⟨1, 5, MovType.IN, none, none, 1⟩, ⟨1, 3, MovType.OUT, none, none, 2⟩]

/-- Concrete final state of the C2 witness run. -/
def exLedgerFinal : State := (applySeq exLedgerState exLedgerReqs).getD exLedgerState

/-- Concrete final product row of the C2 witness run. -/
def exLedgerP2 : Product := (findProduct exLedgerFinal 1).getD exLedgerProduct

/-- C1: whenever the stock-update transaction computes a negative `newStock`
(`previousStock + quantity` for IN, `previousStock - quantity` for OUT), it
fails with the `InsufficientStock` error, and the state after the transaction
is exactly the state before it: the product row (all columns, `currentStock`
and `updatedAt` included) is untouched and no movement row is inserted. -/
theorem updateStock_insufficientStock_no_change
    (s : State) (pid : Nat) (quantity : Int) (ty : MovType)
    (reason : Option String) (userId : Option String) (now : Nat) (p : Product)
    (hp : findProduct s pid = some p)
    (hneg : newStockOf p quantity ty < 0) :
    updateStock s pid quantity ty reason userId now = .error .insufficientStock ∧
    runUpdateStock s pid quantity ty reason userId now =
      (s, some StockError.insufficientStock) := by
  have h1 : updateStock s pid quantity ty reason userId now
      = .error .insufficientStock := by
    unfold updateStock
    rw [hp]
    simp only [if_pos hneg]
  refine ⟨h1, ?_⟩
  unfold runUpdateStock
  rw [h1]

/-- Witness for C1, instantiating the spec's own test: an OUT movement of
quantity 5 on a product holding 3 units fails with `InsufficientStock` and
leaves the product row and the movement table unchanged. -/
theorem updateStock_insufficientStock_no_change_witness :
    runUpdateStock
      ⟨[], [⟨1, "P-1", "Widget", none, "tools", none, 3, 10, 5, true, 0, 0⟩], []⟩
      1 5 MovType.OUT none none 7 =
      (⟨[], [⟨1, "P-1", "Widget", none, "tools", none, 3, 10, 5, true, 0, 0⟩], []⟩,
       some StockError.insufficientStock) :=
  (updateStock_insufficientStock_no_change
      ⟨[], [⟨1, "P-1", "Widget", none, "tools", none, 3, 10, 5, true, 0, 0⟩], []⟩
      1 5 MovType.OUT none none 7
      ⟨1, "P-1", "Widget", none, "tools", none, 3, 10, 5, true, 0, 0⟩
      (by decide) (by decide)).2

/-- The stock-update write never changes a row's `id`. -/
theorem setStock_id_preserved (pid : Nat) (ns : Int) (now : Nat) (q : Product) :
    (if q.id == pid then { q with currentStock := ns, updatedAt := now } else q).id = q.id := by
  by_cases h : (q.id == pid) = true
  · rw [if_pos h]
  · rw [if_neg h]

/-- Lookup after the stock-update write: the found row (if any) is the old
row, updated exactly when its id is the written id. -/
theorem find_setStock (ps : List Product) (pid tgt : Nat) (ns : Int) (now : Nat) :
    (setStock ps pid ns now).find? (fun q => q.id == tgt)
      = Option.map
          (fun q => if q.id == pid then { q with currentStock := ns, updatedAt := now } else q)
          (ps.find? (fun q => q.id == tgt)) := by
  rw [setStock, List.find?_map]
  have hpred : ((fun q : Product => q.id == tgt) ∘
      (fun q => if q.id == pid then { q with currentStock := ns, updatedAt := now } else q))
      = (fun q : Product => q.id == tgt) := by
    funext q
    simp only [Function.comp_apply, setStock_id_preserved]
  rw [hpred]

/-- The stock-update write reaches exactly the rows whose `id` matches, so a
lookup of the written id sees the updated row. -/
theorem find_setStock_self (ps : List Product) (pid : Nat) (ns : Int) (now : Nat)
    (p : Product) (hp : ps.find? (fun q => q.id == pid) = some p) :
    (setStock ps pid ns now).find? (fun q => q.id == pid)
      = some { p with currentStock := ns, updatedAt := now } := by
  rw [find_setStock, hp]
  have hpe : (p.id == pid) = true := by simpa using List.find?_some hp
  simp only [Option.map_some']
  rw [if_pos hpe]

/-- A lookup of a different id is unaffected by the stock-update write. -/
theorem find_setStock_other (ps : List Product) (pid tgt : Nat) (ns : Int) (now : Nat)
    (h : tgt ≠ pid) :
    (setStock ps pid ns now).find? (fun q => q.id == tgt)
      = ps.find? (fun q => q.id == tgt) := by
  rw [find_setStock]
  cases hf : ps.find? (fun q => q.id == tgt) with
  | none => rfl
  | some p =>
    have hpe : (p.id == tgt) = true := by simpa using List.find?_some hf
    have hne : (p.id == pid) = false := by
      have hid : p.id = tgt := by simpa using hpe
      rw [hid]
      exact beq_eq_false_iff_ne.mpr h
    simp only [Option.map_some']
    rw [if_neg (by simp [hne])]

/-- Appending one movement adds its signed delta to the history sum. -/
theorem sumDeltas_concat (ms : List Movement) (m : Movement) :
    sumDeltas (ms ++ [m]) = sumDeltas ms + movDelta m := by
  simp [sumDeltas]

/-- The net history delta is the IN-quantity sum minus the OUT-quantity sum. -/
theorem sumDeltas_eq_inSubOut (ms : List Movement) :
    sumDeltas ms = sumIN ms - sumOUT ms := by
  induction ms with
  | nil => rfl
  | cons m t ih =>
    cases hty : m.type with
    | IN =>
      simp [sumDeltas, sumIN, sumOUT, movDelta, hty, List.filter_cons] at ih ⊢
      omega
    | OUT =>
      simp [sumDeltas, sumIN, sumOUT, movDelta, hty, List.filter_cons] at ih ⊢
      omega

/-- The inserted movement's `newStock` is its `previousStock` plus its signed
delta, by the case analysis of storage.ts line 382. -/
theorem newStockOf_eq_add_delta (p : Product) (q : Int) (ty : MovType)
    (pid : Nat) (re uid : Option String) (now : Nat) :
    newStockOf p q ty = p.currentStock + movDelta (mkMovement pid q ty re uid now p) := by
  cases ty <;> simp [newStockOf, movDelta, mkMovement, sub_eq_add_neg]

/-- Success characterization of the stock-update transaction: a successful
run found the product, computed a non-negative `newStock`, wrote that stock
back and appended exactly one movement row. -/
theorem updateStock_ok_elim (s : State) (rpid : Nat) (q : Int) (ty : MovType)
    (re uid : Option String) (now : Nat) (s2 : State)
    (h : updateStock s rpid q ty re uid now = .ok s2) :
    ∃ product, findProduct s rpid = some product ∧
      ¬ newStockOf product q ty < 0 ∧
      s2 = { s with
        products := setStock s.products rpid (newStockOf product q ty) now,
        movements := s.movements ++ [mkMovement rpid q ty re uid now product] } := by
  unfold updateStock at h
  split at h
  · exact Except.noConfusion h
  · rename_i product hfp
    split at h
    · exact Except.noConfusion h
    · rename_i hns
      injection h with h2
      exact ⟨product, hfp, hns, h2.symm⟩

/-- One successful stock update preserves ledger consistency of every
product (the touched one and all others). -/
theorem updateStock_preserves_consistentB
    (s : State) (pid : Nat) (init : Int) (rpid : Nat) (q : Int) (ty : MovType)
    (re uid : Option String) (now : Nat) (s2 : State)
    (hc : consistentB s pid init = true)
    (h : updateStock s rpid q ty re uid now = .ok s2) :
    consistentB s2 pid init = true := by
  obtain ⟨product, hfp, hns, hs2⟩ := updateStock_ok_elim s rpid q ty re uid now s2 h
  subst hs2
  by_cases hpp : pid = rpid
  · subst hpp
    have e1 : findProduct { s with
        products := setStock s.products pid (newStockOf product q ty) now,
        movements := s.movements ++ [mkMovement pid q ty re uid now product] } pid
        = some { product with currentStock := newStockOf product q ty, updatedAt := now } := by
      show (setStock s.products pid (newStockOf product q ty) now).find? (fun p => p.id == pid)
          = some { product with currentStock := newStockOf product q ty, updatedAt := now }
      exact find_setStock_self s.products pid (newStockOf product q ty) now product hfp
    have e2 : movementsFor { s with
        products := setStock s.products pid (newStockOf product q ty) now,
        movements := s.movements ++ [mkMovement pid q ty re uid now product] } pid
        = movementsFor s pid ++ [mkMovement pid q ty re uid now product] := by
      show (s.movements ++ [mkMovement pid q ty re uid now product]).filter
          (fun m => m.productId == pid) = _
      rw [List.filter_append]
      simp [movementsFor, mkMovement]
    rw [consistentB, e1, e2]
    rw [consistentB, hfp] at hc
    have hpc : productConsistent init (movementsFor s pid) product = true := hc
    rw [productConsistent] at hpc
    simp only [Bool.and_eq_true, beq_iff_eq] at hpc
    obtain ⟨⟨h1, h2⟩, h3⟩ := hpc
    show productConsistent init
        (movementsFor s pid ++ [mkMovement pid q ty re uid now product])
        { product with currentStock := newStockOf product q ty, updatedAt := now } = true
    rw [productConsistent]
    simp only [Bool.and_eq_true, beq_iff_eq]
    refine ⟨⟨?_, ?_⟩, ?_⟩
    · show newStockOf product q ty = _
      rw [sumDeltas_concat, newStockOf_eq_add_delta product q ty pid re uid now, h1]
      ring
    · show lastOk _ _ = true
      rw [lastOk, List.getLast?_concat]
      show (mkMovement pid q ty re uid now product).newStock == newStockOf product q ty
      simp [mkMovement]
    · rw [List.all_append, Bool.and_eq_true]
      refine ⟨h3, ?_⟩
      simp only [List.all_cons, List.all_nil, Bool.and_true]
      rw [movOk]
      show (newStockOf product q ty == product.currentStock +
        movDelta (mkMovement pid q ty re uid now product)) = true
      simp [newStockOf_eq_add_delta product q ty pid re uid now]
  · have e1 : findProduct { s with
        products := setStock s.products rpid (newStockOf product q ty) now,
        movements := s.movements ++ [mkMovement rpid q ty re uid now product] } pid
        = findProduct s pid := by
      show (setStock s.products rpid (newStockOf product q ty) now).find?
          (fun p => p.id == pid) = _
      rw [find_setStock_other]
      · rfl
      · exact hpp
    have e2 : movementsFor { s with
        products := setStock s.products rpid (newStockOf product q ty) now,
        movements := s.movements ++ [mkMovement rpid q ty re uid now product] } pid
        = movementsFor s pid := by
      show (s.movements ++ [mkMovement rpid q ty re uid now product]).filter
          (fun m => m.productId == pid) = _
      rw [List.filter_append]
      have : [mkMovement rpid q ty re uid now product].filter
          (fun m => m.productId == pid) = [] := by
        simp [mkMovement]
        exact fun hcontra => hpp hcontra.symm
      rw [this, List.append_nil]
      rfl
    rw [consistentB, e1, e2]
    rw [consistentB] at hc
    exact hc

/-- Ledger consistency is preserved by any sequence of successful stock
updates. -/
theorem applySeq_preserves_consistentB (rs : List StockReq) (s : State)
    (pid : Nat) (init : Int) (s2 : State)
    (hc : consistentB s pid init = true) (h : applySeq s rs = some s2) :
    consistentB s2 pid init = true := by
  induction rs generalizing s with
  | nil =>
    unfold applySeq at h
    injection h with h2
    exact h2 ▸ hc
  | cons r rs ih =>
    unfold applySeq at h
    split at h
    · exact Option.noConfusion h
    · rename_i s3 hu
      exact ih s3 (updateStock_preserves_consistentB s pid init
        r.pid r.quantity r.type r.reason r.userId r.now s3 hc hu) h

/-- C2: starting from any ledger-consistent state (the product's
`currentStock` equals its latest movement's `newStock`, or its implicit
initial stock when it has no movements), after any finite sequence of
successful stock updates the product's `currentStock` equals the `newStock`
of its most recent movement row, and equals the implicit initial stock plus
the sum of IN quantities minus the sum of OUT quantities over its full
movement history; moreover every movement row of its history satisfies
`newStock = previousStock + quantity` for IN and
`newStock = previousStock - quantity` for OUT. -/
theorem updateStock_seq_ledger_invariant
    (s : State) (pid : Nat) (init : Int) (rs : List StockReq)
    (s2 : State) (p2 : Product)
    (hc : consistentB s pid init = true)
    (hrun : applySeq s rs = some s2)
    (hp : findProduct s2 pid = some p2) :
    p2.currentStock =
      init + (sumIN (movementsFor s2 pid) - sumOUT (movementsFor s2 pid)) ∧
    (∀ m, (movementsFor s2 pid).getLast? = some m → m.newStock = p2.currentStock) ∧
    (∀ m ∈ movementsFor s2 pid, m.newStock = m.previousStock + movDelta m) := by
  have hc2 := applySeq_preserves_consistentB rs s pid init s2 hc hrun
  rw [consistentB, hp] at hc2
  have hpc : productConsistent init (movementsFor s2 pid) p2 = true := hc2
  rw [productConsistent] at hpc
  simp only [Bool.and_eq_true, beq_iff_eq] at hpc
  obtain ⟨⟨h1, h2⟩, h3⟩ := hpc
  refine ⟨?_, ?_, ?_⟩
  · rw [h1, sumDeltas_eq_inSubOut]
  · intro m hm
    rw [lastOk, hm] at h2
    simpa using h2
  · intro m hm
    have hmk := List.all_eq_true.mp h3 m hm
    simpa [movOk] using hmk

/-- Witness for C2: a concrete run (IN 5 then OUT 3 from stock 0) whose final
`currentStock` is the initial stock plus IN-sum minus OUT-sum. -/
theorem updateStock_seq_ledger_invariant_witness :
    exLedgerP2.currentStock =
      0 + (sumIN (movementsFor exLedgerFinal 1) - sumOUT (movementsFor exLedgerFinal 1)) :=
  (updateStock_seq_ledger_invariant exLedgerState 1 0 exLedgerReqs exLedgerFinal exLedgerP2
    (by decide) (by decide) (by decide)).1

/-- C3 (evaluation of the failing input): the route rejects `quantity = 0`
with HTTP 400 and leaves the state unchanged, but a NEGATIVE quantity passes
the JavaScript-falsiness guard `!quantity`: `OUT` of `-5` on a product with
stock 3 is accepted with HTTP 200, sets `currentStock` to 8, and inserts a
movement row recording quantity `-5` — no `InvalidQuantity` rejection for
`quantity < 0` exists anywhere on the path. -/
theorem postStock_negative_quantity_bug :
    (postStock exRouteState 1 0 "OUT" none none 5).1.status = 400 ∧
    (postStock exRouteState 1 0 "OUT" none none 5).2 = exRouteState ∧
    postStock exRouteState 1 (-5) "OUT" none none 5 =
      (⟨200, "Stock updated successfully"⟩,
       ⟨[], [⟨1, "P-1", "Widget", none, "tools", none, 8, 10, 5, true, 0, 5⟩],
        [⟨1, MovType.OUT, -5, 3, 8, none, none, 5⟩]⟩) := by
  decide

/-- C4: for every product with non-negative stock and threshold (the data
model's invariant), the three status conditions of `getProducts` form the
spec's three-way partition — `out_of_stock` iff `currentStock = 0`,
`low_stock` iff `0 < currentStock ≤ minStock` (so equality counts as low),
`in_stock` exactly otherwise — each condition coincides with the spec's
`classifyStock`, and the dashboard's `lowStockItems`/`outOfStockItems`
counts use the very same conditions. -/
theorem stock_classification_partition (p : Product)
    (hcs : 0 ≤ p.currentStock) (hmin : 0 ≤ p.minStock) :
    (statusCond StatusFilter.out_of_stock p = true ↔ p.currentStock = 0) ∧
    (statusCond StatusFilter.low_stock p = true ↔
      0 < p.currentStock ∧ p.currentStock ≤ p.minStock) ∧
    (statusCond StatusFilter.in_stock p = true ↔
      ¬ statusCond StatusFilter.out_of_stock p = true ∧
      ¬ statusCond StatusFilter.low_stock p = true) ∧
    (statusCond StatusFilter.in_stock p = true ↔ classifyStock p = StockClass.in_stock) ∧
    (statusCond StatusFilter.low_stock p = true ↔ classifyStock p = StockClass.low_stock) ∧
    (statusCond StatusFilter.out_of_stock p = true ↔
      classifyStock p = StockClass.out_of_stock) ∧
    (∀ s : State,
      lowStockItems s =
        (s.products.filter (fun q => q.isActive && statusCond StatusFilter.low_stock q)).length ∧
      outOfStockItems s =
        (s.products.filter
          (fun q => q.isActive && statusCond StatusFilter.out_of_stock q)).length) := by
  refine ⟨?_, ?_, ?_, ?_, ?_, ?_, ?_⟩
  · simp [statusCond]
  · simp only [statusCond, Bool.and_eq_true, decide_eq_true_eq]
    omega
  · simp only [statusCond, Bool.and_eq_true, decide_eq_true_eq, beq_iff_eq]
    omega
  · simp only [statusCond, decide_eq_true_eq, classifyStock]
    split_ifs with h1 h2 <;> simp <;> omega
  · simp only [statusCond, Bool.and_eq_true, decide_eq_true_eq, classifyStock]
    split_ifs with h1 h2 <;> simp <;> omega
  · simp only [statusCond, beq_iff_eq, classifyStock]
    split_ifs with h1 h2 <;> simp <;> omega
  · intro s
    constructor
    · have hpred : (fun q : Product =>
          q.isActive && decide (q.currentStock ≤ q.minStock) && decide (q.currentStock > 0))
          = (fun q : Product => q.isActive && statusCond StatusFilter.low_stock q) := by
        funext q
        simp [statusCond, Bool.and_assoc]
      rw [lowStockItems, hpred]
    · rfl

/-- Witness for C4, instantiating the spec's boundary tests: stock 10 with
threshold 10 is `low_stock`, stock 11 is `in_stock`, stock 0 is
`out_of_stock`, and the spec-side `classifyStock` agrees on each. -/
theorem stock_classification_partition_witness :
    (statusCond StatusFilter.low_stock exBoundary10 = true ∧
      classifyStock exBoundary10 = StockClass.low_stock) ∧
    (statusCond StatusFilter.in_stock exBoundary11 = true ∧
      classifyStock exBoundary11 = StockClass.in_stock) ∧
    (statusCond StatusFilter.out_of_stock exBoundary0 = true ∧
      classifyStock exBoundary0 = StockClass.out_of_stock) := by
  refine ⟨⟨?_, ?_⟩, ⟨?_, ?_⟩, ⟨?_, ?_⟩⟩
  · exact (stock_classification_partition exBoundary10 (by decide) (by decide)).2.1.mpr
      (by decide)
  · exact (stock_classification_partition exBoundary10 (by decide) (by decide)).2.2.2.2.1.mp
      ((stock_classification_partition exBoundary10 (by decide) (by decide)).2.1.mpr (by decide))
  · exact (stock_classification_partition exBoundary11 (by decide) (by decide)).2.2.1.mpr
      (by decide)
  · exact (stock_classification_partition exBoundary11 (by decide) (by decide)).2.2.2.1.mp
      ((stock_classification_partition exBoundary11 (by decide) (by decide)).2.2.1.mpr (by decide))
  · exact (stock_classification_partition exBoundary0 (by decide) (by decide)).1.mpr
      (by decide)
  · exact (stock_classification_partition exBoundary0 (by decide) (by decide)).2.2.2.2.2.1.mp
      ((stock_classification_partition exBoundary0 (by decide) (by decide)).1.mpr (by decide))

/-- C5 (counterexample): the dashboard's `totalValue` does NOT equal the
exact sum `Σ currentStock × unitPrice`: on one active product with stock 1
and unit price 1/2, the SQL `cast(... as integer)` truncates the exact sum
1/2 down to 0. -/
theorem totalValue_not_exact_counterexample :
    ¬ ((totalValue exValueState : Rat) = totalValueExact exValueState) ∧
    totalValue exValueState = 0 ∧
    totalValueExact exValueState = (1 : Rat)/2 := by
  have hexact : totalValueExact exValueState = (1 : Rat)/2 := by
    show ((1 : Int) : Rat) * ((1 : Rat)/2) + 0 = (1 : Rat)/2
    norm_num
  have hval : totalValue exValueState = 0 := by
    show ratTrunc (((1 : Int) : Rat) * ((1 : Rat)/2) + 0) = 0
    rw [show ((1 : Int) : Rat) * ((1 : Rat)/2) + 0 = (1 : Rat)/2 from by norm_num]
    show ((1 : Rat)/2).num.tdiv (((1 : Rat)/2).den : Int) = 0
    rw [show ((1 : Rat)/2).num = 1 from by norm_num,
      show ((1 : Rat)/2).den = 2 from by norm_num]
    decide
  refine ⟨?_, hval, hexact⟩
  rw [hval, hexact]
  norm_num

/-- C5 (amended): `totalValue` equals the integer CAST (truncation toward
zero) of the exact sum of `currentStock × unitPrice` over active products
only — equivalently of the sum over ALL products that counts an inactive
product as 0 — and prepending an inactive product to the table, whatever its
stock and price, leaves `totalValue` unchanged. -/
theorem totalValue_trunc_over_active (s : State) :
    totalValue s = ratTrunc (totalValueExact s) ∧
    totalValue s = ratTrunc ((s.products.map
      (fun p => if p.isActive then (p.currentStock : Rat) * p.unitPrice else 0)).sum) ∧
    (∀ p : Product, p.isActive = false →
      totalValue { s with products := p :: s.products } = totalValue s) := by
  refine ⟨rfl, ?_, ?_⟩
  · have hsum : ∀ l : List Product,
        ((l.filter (fun p => p.isActive)).map
          (fun p => (p.currentStock : Rat) * p.unitPrice)).sum
        = (l.map (fun p => if p.isActive then (p.currentStock : Rat) * p.unitPrice else 0)).sum := by
      intro l
      induction l with
      | nil => rfl
      | cons a t ih =>
        by_cases ha : a.isActive <;> simp [List.filter_cons, ha, ih]
    rw [totalValue, hsum]
  · intro p hp
    show ratTrunc _ = ratTrunc _
    rw [show ({ s with products := p :: s.products } : State).products.filter
        (fun p => p.isActive) = s.products.filter (fun p => p.isActive) from by
      simp [List.filter_cons, hp]]

/-- Witness for C5's amended claim: prepending a concrete inactive product
(stock 100, price 3) to the table leaves `totalValue` unchanged. -/
theorem totalValue_trunc_over_active_witness :
    totalValue { exValueState with products := exInactive :: exValueState.products }
      = totalValue exValueState :=
  (totalValue_trunc_over_active exValueState).2.2 exInactive rfl

/-- C6 (counterexample): a stock update on a missing product returns HTTP
500, not the 404 the claim requires — the route's catch-all maps every
storage error, `ProductNotFound` and `InsufficientStock` included, to 500. -/
theorem postStock_missing_product_returns_500 :
    (postStock exEmptyState 1 5 "IN" none none 0).1.status = 500 ∧
    ¬ (postStock exEmptyState 1 5 "IN" none none 0).1.status = 404 := by
  decide

/-- C6 (amended): the stock route's actual error mapping — a malformed body
(falsy quantity, i.e. 0, or a type outside {IN, OUT}) yields HTTP 400 with
no state change; EVERY error thrown by `updateStock` (`Product not found`
and `Insufficient stock` alike) yields HTTP 500 carrying the error's
message, with no state change; success yields HTTP 200 with the updated
state. -/
theorem postStock_error_mapping (s : State) (id : Nat) (q : Int) (ty : String)
    (reason userId : Option String) (now : Nat) :
    ((q = 0 ∨ (ty ≠ "IN" ∧ ty ≠ "OUT")) →
      postStock s id q ty reason userId now = (⟨400, "Invalid stock update data"⟩, s)) ∧
    (∀ e, q ≠ 0 → (ty = "IN" ∨ ty = "OUT") →
      updateStock s id q (if ty == "IN" then MovType.IN else MovType.OUT) reason userId now
        = .error e →
      postStock s id q ty reason userId now = (⟨500, errMessage e⟩, s)) ∧
    (∀ s2, q ≠ 0 → (ty = "IN" ∨ ty = "OUT") →
      updateStock s id q (if ty == "IN" then MovType.IN else MovType.OUT) reason userId now
        = .ok s2 →
      postStock s id q ty reason userId now = (⟨200, "Stock updated successfully"⟩, s2)) := by
  refine ⟨?_, ?_, ?_⟩
  · intro h
    have hcond : (q == 0 || !(ty == "IN" || ty == "OUT")) = true := by
      rcases h with h | ⟨h1, h2⟩
      · simp [h]
      · simp [h1, h2]
    unfold postStock
    rw [if_pos hcond]
  · intro e hq hty hu
    have hcond : ¬ ((q == 0 || !(ty == "IN" || ty == "OUT")) = true) := by
      rcases hty with h | h <;> simp [h, hq]
    unfold postStock
    rw [if_neg hcond, hu]
  · intro s2 hq hty hu
    have hcond : ¬ ((q == 0 || !(ty == "IN" || ty == "OUT")) = true) := by
      rcases hty with h | h <;> simp [h, hq]
    unfold postStock
    rw [if_neg hcond, hu]

/-- Witness for C6's amended claim: the spec's own insufficient-stock test
(OUT 5 on stock 3) comes back as HTTP 500 with the message
`Insufficient stock` and an unchanged state. -/
theorem postStock_error_mapping_witness :
    postStock exRouteState 1 5 "OUT" none none 9
      = (⟨500, "Insufficient stock"⟩, exRouteState) :=
  (postStock_error_mapping exRouteState 1 5 "OUT" none none 9).2.1
    StockError.insufficientStock (by decide) (Or.inr rfl) rfl

/-- C7: for every product and every non-negative quantity `q` (with the data
model's non-negative stock), a successful IN of `q` followed by an OUT of
`q` returns `currentStock` to its original value and appends exactly two
movement rows: the first with `previousStock` = the original stock and
`newStock` = original + q, the second with `previousStock` = original + q
and `newStock` = the original stock. -/
theorem updateStock_in_then_out_roundtrip
    (s : State) (pid : Nat) (q : Int) (p : Product)
    (r1 u1 : Option String) (n1 : Nat) (r2 u2 : Option String) (n2 : Nat)
    (hp : findProduct s pid = some p)
    (hq : 0 ≤ q) (hcs : 0 ≤ p.currentStock) :
    updateStockTwice s pid q r1 u1 n1 r2 u2 n2 = .ok { s with
      products := setStock (setStock s.products pid (p.currentStock + q) n1)
        pid p.currentStock n2,
      movements := s.movements ++
        [⟨pid, MovType.IN, q, p.currentStock, p.currentStock + q, r1, u1, n1⟩,
         ⟨pid, MovType.OUT, q, p.currentStock + q, p.currentStock, r2, u2, n2⟩] } ∧
    (∀ s2, updateStockTwice s pid q r1 u1 n1 r2 u2 n2 = .ok s2 →
      ∀ p2, findProduct s2 pid = some p2 → p2.currentStock = p.currentStock) := by
  have e0 : newStockOf p q MovType.IN = p.currentStock + q := rfl
  have hnn1 : ¬ newStockOf p q MovType.IN < 0 := by rw [e0]; omega
  have h1 : updateStock s pid q MovType.IN r1 u1 n1
      = .ok { s with
          products := setStock s.products pid (newStockOf p q MovType.IN) n1,
          movements := s.movements ++ [mkMovement pid q MovType.IN r1 u1 n1 p] } := by
    unfold updateStock
    rw [hp]
    simp only [if_neg hnn1]
  have hp1 : findProduct { s with
      products := setStock s.products pid (newStockOf p q MovType.IN) n1,
      movements := s.movements ++ [mkMovement pid q MovType.IN r1 u1 n1 p] } pid
      = some { p with currentStock := newStockOf p q MovType.IN, updatedAt := n1 } := by
    show (setStock s.products pid (newStockOf p q MovType.IN) n1).find?
        (fun x => x.id == pid) = _
    exact find_setStock_self s.products pid _ n1 p hp
  have e1 : newStockOf { p with currentStock := newStockOf p q MovType.IN, updatedAt := n1 }
      q MovType.OUT = p.currentStock := by
    show newStockOf p q MovType.IN - q = p.currentStock
    rw [e0]
    omega
  have hnn2 : ¬ newStockOf { p with currentStock := newStockOf p q MovType.IN, updatedAt := n1 }
      q MovType.OUT < 0 := by
    rw [e1]
    omega
  have h2 : updateStock { s with
      products := setStock s.products pid (newStockOf p q MovType.IN) n1,
      movements := s.movements ++ [mkMovement pid q MovType.IN r1 u1 n1 p] }
      pid q MovType.OUT r2 u2 n2
      = .ok { s with
          products := setStock (setStock s.products pid (newStockOf p q MovType.IN) n1) pid
            (newStockOf { p with currentStock := newStockOf p q MovType.IN, updatedAt := n1 }
              q MovType.OUT) n2,
          movements := (s.movements ++ [mkMovement pid q MovType.IN r1 u1 n1 p]) ++
            [mkMovement pid q MovType.OUT r2 u2 n2
              { p with currentStock := newStockOf p q MovType.IN, updatedAt := n1 }] } := by
    unfold updateStock
    rw [hp1]
    simp only [if_neg hnn2]
  have hTwice : updateStockTwice s pid q r1 u1 n1 r2 u2 n2
      = .ok { s with
          products := setStock (setStock s.products pid (newStockOf p q MovType.IN) n1) pid
            (newStockOf { p with currentStock := newStockOf p q MovType.IN, updatedAt := n1 }
              q MovType.OUT) n2,
          movements := (s.movements ++ [mkMovement pid q MovType.IN r1 u1 n1 p]) ++
            [mkMovement pid q MovType.OUT r2 u2 n2
              { p with currentStock := newStockOf p q MovType.IN, updatedAt := n1 }] } := by
    unfold updateStockTwice
    rw [h1]
    exact h2
  have hmain : updateStockTwice s pid q r1 u1 n1 r2 u2 n2 = .ok { s with
      products := setStock (setStock s.products pid (p.currentStock + q) n1)
        pid p.currentStock n2,
      movements := s.movements ++
        [⟨pid, MovType.IN, q, p.currentStock, p.currentStock + q, r1, u1, n1⟩,
         ⟨pid, MovType.OUT, q, p.currentStock + q, p.currentStock, r2, u2, n2⟩] } := by
    rw [hTwice]
    have hm1 : mkMovement pid q MovType.IN r1 u1 n1 p
        = ⟨pid, MovType.IN, q, p.currentStock, p.currentStock + q, r1, u1, n1⟩ := by
      rw [mkMovement, e0]
    have hm2 : mkMovement pid q MovType.OUT r2 u2 n2
        { p with currentStock := newStockOf p q MovType.IN, updatedAt := n1 }
        = ⟨pid, MovType.OUT, q, p.currentStock + q, p.currentStock, r2, u2, n2⟩ := by
      rw [mkMovement, e1]
      rw [show ({ p with currentStock := newStockOf p q MovType.IN, updatedAt := n1 }
        : Product).currentStock = p.currentStock + q from e0]
    rw [hm1, hm2, e1, e0, List.append_assoc]
    rfl
  refine ⟨hmain, ?_⟩
  intro s2 hs2 p2 hp2
  rw [hmain] at hs2
  injection hs2 with hs2
  subst hs2
  have hfind : findProduct { s with
      products := setStock (setStock s.products pid (p.currentStock + q) n1)
        pid p.currentStock n2,
      movements := s.movements ++
        [⟨pid, MovType.IN, q, p.currentStock, p.currentStock + q, r1, u1, n1⟩,
         ⟨pid, MovType.OUT, q, p.currentStock + q, p.currentStock, r2, u2, n2⟩] } pid
      = some { p with currentStock := p.currentStock, updatedAt := n2 } := by
    show (setStock (setStock s.products pid (p.currentStock + q) n1)
        pid p.currentStock n2).find? (fun x => x.id == pid) = _
    have hinner : (setStock s.products pid (p.currentStock + q) n1).find?
        (fun x => x.id == pid)
        = some { p with currentStock := p.currentStock + q, updatedAt := n1 } :=
      find_setStock_self s.products pid _ n1 p hp
    exact find_setStock_self (setStock s.products pid (p.currentStock + q) n1) pid
      p.currentStock n2 { p with currentStock := p.currentStock + q, updatedAt := n1 } hinner
  rw [hfind] at hp2
  injection hp2 with hp2
  subst hp2
  rfl

/-- Witness for C7: the concrete round-trip IN 5 then OUT 5 on a product with
stock 4 succeeds and produces exactly the state with the two snapshot rows
and the original stock. -/
theorem updateStock_in_then_out_roundtrip_witness :
    updateStockTwice exC7State 1 5 none none 1 none none 2 = .ok exC7Final :=
  (updateStock_in_then_out_roundtrip exC7State 1 5 exC7Product
    none none 1 none none 2 rfl (by decide) (by decide)).1

/-- The spec-side status description agrees with the SQL condition of the
status switch, for non-negative stock and threshold. -/
theorem statusCond_iff_classify (p : Product) (st : StatusFilter)
    (hcs : 0 ≤ p.currentStock) (hmin : 0 ≤ p.minStock) :
    statusCond st p = true ↔ ∀ c, statusClass st = some c → classifyStock p = c := by
  cases st with
  | all =>
    simp [statusCond, statusClass]
  | in_stock =>
    constructor
    · intro h c hc
      have hc2 : StockClass.in_stock = c := by simpa [statusClass] using hc
      subst hc2
      have hgt : p.minStock < p.currentStock := by simpa [statusCond] using h
      rw [classifyStock, if_neg (by omega), if_neg (by omega)]
    · intro h
      have hin := h StockClass.in_stock rfl
      show decide (p.minStock < p.currentStock) = true
      simp only [decide_eq_true_eq]
      rw [classifyStock] at hin
      split_ifs at hin with h1 h2
      omega
  | low_stock =>
    constructor
    · intro h c hc
      have hc2 : StockClass.low_stock = c := by simpa [statusClass] using hc
      subst hc2
      have hlo : p.currentStock ≤ p.minStock ∧ 0 < p.currentStock := by
        simpa [statusCond] using h
      rw [classifyStock, if_neg (by omega), if_pos (by omega)]
    · intro h
      have hlow := h StockClass.low_stock rfl
      show (decide (p.currentStock ≤ p.minStock) && decide (0 < p.currentStock)) = true
      simp only [Bool.and_eq_true, decide_eq_true_eq]
      rw [classifyStock] at hlow
      split_ifs at hlow with h1 h2
      omega
  | out_of_stock =>
    constructor
    · intro h c hc
      have hc2 : StockClass.out_of_stock = c := by simpa [statusClass] using hc
      subst hc2
      have h0 : p.currentStock = 0 := by simpa [statusCond] using h
      rw [classifyStock, if_pos h0]
    · intro h
      have hout := h StockClass.out_of_stock rfl
      show (p.currentStock == 0) = true
      simp only [beq_iff_eq]
      rw [classifyStock] at hout
      split_ifs at hout with h1 h2
      omega

/-- The condition stack built by `getProducts` holds exactly when the
spec-side `filterProducts` description does, for non-negative stock and
threshold. -/
theorem matchesFilters_iff_spec (f : ProductFilters) (p : Product)
    (hcs : 0 ≤ p.currentStock) (hmin : 0 ≤ p.minStock) :
    matchesFilters f p = true ↔ specMatches f p := by
  rw [matchesFilters, specMatches]
  simp only [Bool.and_eq_true]
  constructor
  · rintro ⟨⟨⟨⟨hact, hcat⟩, hzone⟩, hsearch⟩, hstatus⟩
    refine ⟨hact, ?_, ?_, ?_, ?_⟩
    · intro c hc hne
      rw [hc] at hcat
      simp only [Bool.or_eq_true, beq_iff_eq] at hcat
      rcases hcat with h | h
      · exact absurd h hne
      · exact h
    · intro z hz hne
      rw [hz] at hzone
      simp only [Bool.or_eq_true, beq_iff_eq] at hzone
      rcases hzone with h | h
      · exact absurd h hne
      · exact h
    · intro t ht hne
      rw [ht] at hsearch
      simp only [Bool.or_eq_true, beq_iff_eq] at hsearch
      rcases hsearch with h | hor
      · exact absurd h hne
      · rcases hor with (h | h) | h
        · exact Or.inl h
        · exact Or.inr (Or.inl h)
        · exact Or.inr (Or.inr h)
    · intro st c hst hc
      rw [hst] at hstatus
      exact (statusCond_iff_classify p st hcs hmin).mp hstatus c hc
  · rintro ⟨hact, hcat, hzone, hsearch, hstatus⟩
    refine ⟨⟨⟨⟨hact, ?_⟩, ?_⟩, ?_⟩, ?_⟩
    · cases hc : f.category with
      | none => rfl
      | some c =>
        by_cases hne : c = ""
        · simp [hne]
        · simp only [Bool.or_eq_true, beq_iff_eq]
          exact Or.inr (hcat c hc hne)
    · cases hz : f.zoneId with
      | none => rfl
      | some z =>
        by_cases hne : z = 0
        · simp [hne]
        · simp only [Bool.or_eq_true, beq_iff_eq]
          exact Or.inr (hzone z hz hne)
    · cases ht : f.search with
      | none => rfl
      | some t =>
        by_cases hne : t = ""
        · simp [hne]
        · simp only [Bool.or_eq_true, beq_iff_eq]
          refine Or.inr ?_
          rcases hsearch t ht hne with h | h | h
          · exact Or.inl (Or.inl h)
          · exact Or.inl (Or.inr h)
          · exact Or.inr h
    · cases hst : f.status with
      | none => rfl
      | some st =>
        exact (statusCond_iff_classify p st hcs hmin).mpr
          (fun c hc => hstatus st c hst hc)

/-- C8: for every filter combination (over a table satisfying the data
model's non-negative stock/threshold invariant), `getProducts` returns
exactly the active products matching every given filter — category and
zoneId by exact match, free-text search as a case-insensitive substring
match against name OR external productId OR category, status via the stock
classification — with inactive products excluded, and the result is ordered
by name ascending. -/
theorem getProducts_filters_spec (s : State) (f : ProductFilters) (p : Product)
    (hwf : ∀ q ∈ s.products, 0 ≤ q.currentStock ∧ 0 ≤ q.minStock) :
    (p ∈ getProducts s f ↔ p ∈ s.products ∧ specMatches f p) ∧
    List.Sorted nameLe (getProducts s f) := by
  constructor
  · rw [getProducts, List.mem_insertionSort, List.mem_filter]
    constructor
    · rintro ⟨hmem, hmatch⟩
      exact ⟨hmem, (matchesFilters_iff_spec f p (hwf p hmem).1 (hwf p hmem).2).mp hmatch⟩
    · rintro ⟨hmem, hspec⟩
      exact ⟨hmem, (matchesFilters_iff_spec f p (hwf p hmem).1 (hwf p hmem).2).mpr hspec⟩
  · exact List.sorted_insertionSort nameLe _

/-- Witness for C8: on a concrete three-product table the hypotheses hold by
evaluation and the returned listing is sorted by name; the searched, active,
category-matching product is a member while the inactive one is not. -/
theorem getProducts_filters_spec_witness :
    List.Sorted nameLe (getProducts exFilterState exFilter) ∧
    (exFilterP1 ∈ getProducts exFilterState exFilter ↔
      exFilterP1 ∈ exFilterState.products ∧ specMatches exFilter exFilterP1) :=
  ⟨(getProducts_filters_spec exFilterState exFilter exFilterP1 (by decide)).2,
   (getProducts_filters_spec exFilterState exFilter exFilterP1 (by decide)).1⟩

/-- Exactly one element of a zone list carries a member's id when the mapped
ids are distinct (the primary-key invariant). -/
theorem countP_zone_id_eq_one (l : List Zone) (z : Zone) (hz : z ∈ l)
    (hnd : (l.map Zone.id).Nodup) :
    l.countP (fun w => w.id == z.id) = 1 := by
  induction l with
  | nil => cases hz
  | cons a t ih =>
    rw [List.map_cons, List.nodup_cons] at hnd
    rcases List.mem_cons.mp hz with hza | hzt
    · subst hza
      have hpa : ((fun w : Zone => w.id == z.id) z) = true := by simp
      rw [List.countP_cons_of_pos _ t hpa]
      have h0 : t.countP (fun w => w.id == z.id) = 0 := by
        rw [List.countP_eq_zero]
        intro w hw
        simp only [beq_iff_eq]
        intro hid
        exact hnd.1 (hid ▸ List.mem_map_of_mem Zone.id hw)
      rw [h0]
    · have hpa : ¬ ((fun w : Zone => w.id == z.id) a) = true := by
        simp only [beq_iff_eq]
        intro hid
        exact hnd.1 (hid ▸ List.mem_map_of_mem Zone.id hzt)
      rw [List.countP_cons_of_neg _ t hpa]
      exact ih hzt hnd.2

/-- C9: when zone ids are distinct (the primary-key invariant), the
dashboard's `zoneStatus` has exactly one row for each zone of the table —
including zones referenced by no active product, which appear with
`itemCount = 0` rather than being omitted — and every row's `itemCount` is
the number of active products whose `zoneId` references that zone. -/
theorem zoneStatus_one_row_per_zone (s : State) (z : Zone)
    (hz : z ∈ s.zones) (hnd : (s.zones.map Zone.id).Nodup) :
    ZoneStatusRow.mk z (zoneItemCount s z.id) ∈ zoneStatus s ∧
    ((zoneStatus s).filter (fun r => r.zone.id == z.id)).length = 1 ∧
    (∀ r ∈ zoneStatus s, r.itemCount = zoneItemCount s r.zone.id) := by
  refine ⟨?_, ?_, ?_⟩
  · rw [zoneStatus]
    exact List.mem_map_of_mem _ ((List.mem_insertionSort zoneNameLe).mpr hz)
  · rw [zoneStatus, ← List.countP_eq_length_filter, List.countP_map]
    have hperm := List.perm_insertionSort zoneNameLe s.zones
    rw [hperm.countP_eq]
    exact countP_zone_id_eq_one s.zones z hz hnd
  · intro r hr
    rw [zoneStatus] at hr
    rcases List.mem_map.mp hr with ⟨z2, _, rfl⟩
    rfl

/-- Witness for C9: on a concrete two-zone state where zone B has no
products, zone B still yields a row, with `itemCount = 0`. -/
theorem zoneStatus_one_row_per_zone_witness :
    ZoneStatusRow.mk exZoneB (zoneItemCount exZoneState exZoneB.id) ∈ zoneStatus exZoneState ∧
    zoneItemCount exZoneState exZoneB.id = 0 :=
  ⟨(zoneStatus_one_row_per_zone exZoneState exZoneB (by decide) (by decide)).1, by decide⟩

/-- Every element of a mapped list is related to its source when the map
realizes the relation pointwise. -/
theorem forall₂_map_self {α : Type} {β : Type} (f : α → β) (R : α → β → Prop)
    (l : List α) (h : ∀ a ∈ l, R a (f a)) : List.Forall₂ R l (l.map f) := by
  induction l with
  | nil => exact List.Forall₂.nil
  | cons a t ih =>
    rw [List.map_cons]
    exact List.Forall₂.cons (h a (List.mem_cons_self a t))
      (ih (fun b hb => h b (List.mem_cons_of_mem a hb)))

/-- C10: the soft delete (`deleteProduct`) touches no zone or movement row
and, on the product table, flips only `isActive` (to false, exactly on the
rows whose id matches) while keeping every other column — `currentStock`
and, unlike `updateProduct` and the stock-update write, also `updatedAt` —
at its prior value; by contrast `updateProduct` and the stock-update write
(`setStock`) refresh `updatedAt` on every matched row. -/
theorem deleteProduct_frame (s : State) (id : Nat) (d : ProductPatch) (pid : Nat)
    (ns : Int) (now : Nat) :
    (deleteProduct s id).zones = s.zones ∧
    (deleteProduct s id).movements = s.movements ∧
    List.Forall₂ (fun q q2 : Product =>
      q2.id = q.id ∧ q2.productId = q.productId ∧ q2.name = q.name ∧
      q2.description = q.description ∧ q2.category = q.category ∧
      q2.zoneId = q.zoneId ∧ q2.currentStock = q.currentStock ∧
      q2.minStock = q.minStock ∧ q2.unitPrice = q.unitPrice ∧
      q2.createdAt = q.createdAt ∧ q2.updatedAt = q.updatedAt ∧
      q2.isActive = (if q.id = id then false else q.isActive))
      s.products (deleteProduct s id).products ∧
    List.Forall₂ (fun q q2 : Product =>
      q2.updatedAt = (if q.id = id then now else q.updatedAt))
      s.products (updateProduct s id d now).products ∧
    List.Forall₂ (fun q q2 : Product =>
      q2.updatedAt = (if q.id = pid then now else q.updatedAt))
      s.products (setStock s.products pid ns now) := by
  refine ⟨rfl, rfl, ?_, ?_, ?_⟩
  · show List.Forall₂ _ s.products (s.products.map _)
    apply forall₂_map_self
    intro a _
    by_cases h : a.id = id <;> simp [h]
  · show List.Forall₂ _ s.products (s.products.map _)
    apply forall₂_map_self
    intro a _
    by_cases h : a.id = id <;> simp [h, applyPatch]
  · rw [setStock]
    apply forall₂_map_self
    intro a _
    by_cases h : a.id = pid <;> simp [h]

end WMS
